import Mathlib

/-!
Verification development for the onion-tasks core:
a shallow embedding of `src/core/entities/entities.py` and
`src/use_cases/use_cases.py` (with `src/use_cases/dtos.py`), together with
theorems settling the specification claims about them.

Modelling conventions:
- Python task objects live on a heap; we model the heap (`World`) as an
  association list from numeric object ids to `Task` values, with
  first-match lookup and replace-first update (Python dicts/objects have
  unique identities, and the lemmas below hold for arbitrary lists).
- A Python `set` of task references becomes a duplicate-free `List Nat` of
  object ids in insertion order (`setAdd` inserts only when absent, exactly
  like `set.add`; `List.erase` removes the sole occurrence, exactly like
  `set.remove` on an element that is present); Python set iteration order
  is unspecified, the list fixes one concrete order.
- Methods that mutate an object become functions `World -> ... -> World`.
- `raise` becomes `Except PyError`; `try/except ValueError` matches the
  `PyError.valueError` constructor and `except Exception` matches every
  constructor.
- The `while` loop of `validate_dependencies` is embedded with explicit
  fuel; the fuel bound `validateFuel` is proven sufficient below
  (lemma `validateLoop_isSome_of_lt`), so the `getD` default is never hit.
-/

namespace OnionTasks

/-- Embeds `Status` (entities.py lines 16-19). -/
inductive Status where
  | TODO
  | IN_PROGRESS
  | DONE
deriving DecidableEq, Repr

/-- Embeds `Tag` (entities.py lines 22-25). -/
inductive Tag where
  | HIGH_PRIORITY
  | MEDIUM_PRIORITY
  | LOW_PRIORITY
deriving DecidableEq, Repr

/-- `Status.name` in Python (`status.name` at use_cases.py line 62). -/
def statusName : Status → String
  | .TODO => "TODO"
  | .IN_PROGRESS => "IN_PROGRESS"
  | .DONE => "DONE"

/-- `Tag.name` in Python (`task.name for task in task.tags`, use_cases.py line 61). -/
def tagName : Tag → String
  | .HIGH_PRIORITY => "HIGH_PRIORITY"
  | .MEDIUM_PRIORITY => "MEDIUM_PRIORITY"
  | .LOW_PRIORITY => "LOW_PRIORITY"

/-- Embeds `Agent` (entities.py lines 138-144). -/
structure Agent where
  agent_id : String
  name : String
deriving DecidableEq, Repr

/-- Embeds `Project` (entities.py lines 147-153). -/
structure Project where
  project_id : String
  name : String
deriving DecidableEq, Repr

/-- Embeds the attribute record of a `Task` object (entities.py lines 28-49).
`dependencies` is a Python `set` of references to other task objects,
modelled as a `Finset` of heap ids; `assignee` and `project` are plain
references to immutable objects, modelled by value. -/
structure Task where
  task_id : Option String
  title : String
  description : String
  cost : Int
  status : Status
  tags : List Tag
  dependencies : List Nat
  project : Option Project
  assignee : Option Agent
deriving DecidableEq, Repr

/-- `set.add`: inserts only when the element is absent. -/
def setAdd (l : List Nat) (x : Nat) : List Nat :=
  if x ∈ l then l else l ++ [x]

/-- Placeholder object for a dangling heap id; a dangling id never occurs in
a state built by the operations below, since ids are only stored for live
objects. -/
def defaultTask : Task :=
  { task_id := none, title := "", description := "", cost := 1,
    status := Status.TODO, tags := [], dependencies := [],
    project := none, assignee := none }

/-- The heap of task objects: ids paired with attribute records. -/
abbrev World : Type := List (Nat × Task)

/-- First-match heap lookup (dereferencing a task id). -/
def getTask : World → Nat → Task
  | [], _ => defaultTask
  | (k, tk) :: rest, i => if k = i then tk else getTask rest i

/-- Replace-first heap update (mutating the object behind an id);
inserts at the end when the id is absent. -/
def setTask : World → Nat → Task → World
  | [], i, tk => [(i, tk)]
  | (k, v) :: rest, i, tk =>
    if k = i then (i, tk) :: rest else (k, v) :: setTask rest i tk

/-- Embeds `Task.can_start` (entities.py lines 66-78):
`self.assignee is not None and (not self.dependencies or
 all(dep.status == Status.DONE for dep in self.dependencies))`. -/
def can_start (w : World) (t : Nat) : Bool :=
  (getTask w t).assignee.isSome &&
    ((getTask w t).dependencies.isEmpty ||
      (getTask w t).dependencies.all (fun d => (getTask w d).status == Status.DONE))

/-- Embeds `Task.start_task` (entities.py lines 80-91): sets the status to
`IN_PROGRESS` and returns `True` when `can_start()` holds, otherwise
changes nothing and returns `False`. -/
def start_task (w : World) (t : Nat) : World × Bool :=
  if can_start w t then
    (setTask w t { getTask w t with status := Status.IN_PROGRESS }, true)
  else (w, false)

/-- Embeds `Task.can_complete` (entities.py lines 93-102). -/
def can_complete (w : World) (t : Nat) : Bool :=
  (getTask w t).status = Status.IN_PROGRESS

/-- Embeds `Task.complete_task` (entities.py lines 104-115): sets the status
to `DONE` and returns `True` when the status is `IN_PROGRESS`, otherwise
changes nothing and returns `False`. -/
def complete_task (w : World) (t : Nat) : World × Bool :=
  if can_complete w t then
    (setTask w t { getTask w t with status := Status.DONE }, true)
  else (w, false)

/-- Embeds `Task.set_project` (entities.py lines 117-125). -/
def set_project (w : World) (t : Nat) (p : Project) : World :=
  setTask w t { getTask w t with project := some p }

/-- Embeds `Task.assign` (entities.py lines 127-135). -/
def assign (w : World) (t : Nat) (a : Agent) : World :=
  setTask w t { getTask w t with assignee := some a }

/-- The dependency set of the object behind id `c`, in its concrete list
order (the Python iteration order of `stack.extend(current.dependencies)`
is unspecified; the embedding fixes insertion order). -/
def depsList (w : World) (c : Nat) : List Nat :=
  (getTask w c).dependencies

/-- The `while stack:` loop of `validate_dependencies`
(entities.py lines 169-175), with explicit fuel. The Python stack pops from
the right end and `extend`s on the right; the list here is the reverse of
the Python stack (top element first), so `extend` prepends the dependency
list reversed. `none` means the fuel ran out (never happens for the bound
`validateFuel`, see `validateLoop_isSome_of_lt`). -/
def validateLoop (w : World) : Nat → List Nat → List Nat → Option Bool
  | 0, _, _ => none
  | _ + 1, [], _ => some true
  | fuel + 1, c :: stack, seen =>
    if c ∈ seen then some false
    else validateLoop w fuel ((depsList w c).reverse ++ stack) (c :: seen)

/-- The ids of the task objects on the heap. -/
def keys (w : World) : List Nat := w.map Prod.fst

/-- Fuel sufficient for `validateLoop` to reach a result: initial stack
length plus, for every heap object, one pop plus one push per dependency,
plus one final iteration. -/
def validateFuel (w : World) (stack : List Nat) : Nat :=
  stack.length + ((keys w).map (fun v => 1 + (depsList w v).length)).sum + 1

/-- Embeds `validate_dependencies` (entities.py lines 156-175): depth-first
traversal from `t` with one global `seen` set; returns `False` as soon as a
popped node was already seen, `True` when the stack empties. -/
def validate_dependencies (w : World) (t : Nat) : Bool :=
  (validateLoop w (validateFuel w [t]) [t] []).getD true

/-- The heap just after the `self.dependencies.add(task)` of
`add_dependency` (entities.py line 62), before validation. -/
def postAdd (w : World) (t other : Nat) : World :=
  setTask w t
    { getTask w t with dependencies := setAdd (getTask w t).dependencies other }

/-- Embeds `Task.add_dependency` (entities.py lines 54-64):
`self.dependencies.add(task)`, then if `validate_dependencies(self)` fails,
`self.dependencies.remove(task)`. -/
def add_dependency (w : World) (t other : Nat) : World :=
  if validate_dependencies (postAdd w t other) t then postAdd w t other
  else setTask (postAdd w t other) t
    { getTask (postAdd w t other) t with
        dependencies := (getTask (postAdd w t other) t).dependencies.erase other }

/-- Embeds `get_makespan_boundaries` (entities.py lines 178-199): `(0, 0)` on
the empty list, otherwise `(max of costs, sum of costs)`; Python `max` of a
non-empty iterable folds `max` from the first element, `sum` folds `+` from
`0`. -/
def get_makespan_boundaries (tasks : List Task) : Int × Int :=
  match tasks with
  | [] => (0, 0)
  | t :: ts =>
    (ts.foldl (fun a x => max a x.cost) t.cost,
     (t :: ts).foldl (fun a x => a + x.cost) 0)

/-- One `Counter` update: increment the entry of `s`, or append `(s, 1)`
when no entry exists (Python dict semantics: at most one entry per key). -/
def bumpCount : List (Status × Nat) → Status → List (Status × Nat)
  | [], s => [(s, 1)]
  | (t, n) :: rest, s =>
    if t = s then (t, n + 1) :: rest else (t, n) :: bumpCount rest s

/-- First-match lookup in a counter; `none` means the key has no entry. -/
def countLookup : List (Status × Nat) → Status → Option Nat
  | [], _ => none
  | (t, n) :: rest, s => if t = s then some n else countLookup rest s

/-- Sum of the multiplicities recorded in a counter. -/
def countValuesSum (c : List (Status × Nat)) : Nat := (c.map Prod.snd).sum

/-- Embeds `track_statuses` (entities.py lines 202-211):
`Counter(task.status for task in tasks)` as an insertion-ordered association
list from statuses to counts. -/
def track_statuses (tasks : List Task) : List (Status × Nat) :=
  (tasks.map (fun t => t.status)).foldl bumpCount []

/-- Python exception values as they matter to the use-case layer:
`except ValueError` catches exactly `valueError`; `except Exception`
catches every constructor. -/
inductive PyError where
  | valueError (msg : String)
  | keyError (key : String)
  | other (msg : String)
deriving DecidableEq

/-- The `str(e)` rendering interpolated into failure messages. -/
def errStr : PyError → String
  | .valueError m => m
  | .keyError k => k
  | .other m => m

/-- Embeds the `Result` hierarchy of dtos.py: exactly `Success(value)` or
`Failure(error)`. -/
inductive Result (α : Type) where
  | success (value : α)
  | failure (error : String)
deriving DecidableEq

/-- Embeds `Tag[name]` lookup (enum subscription raises `KeyError` on an
unknown name). -/
def tagLookup (s : String) : Except PyError Tag :=
  if s = "HIGH_PRIORITY" then .ok Tag.HIGH_PRIORITY
  else if s = "MEDIUM_PRIORITY" then .ok Tag.MEDIUM_PRIORITY
  else if s = "LOW_PRIORITY" then .ok Tag.LOW_PRIORITY
  else .error (.keyError s)

/-- Embeds `Status[name]` lookup. -/
def statusLookup (s : String) : Except PyError Status :=
  if s = "TODO" then .ok Status.TODO
  else if s = "IN_PROGRESS" then .ok Status.IN_PROGRESS
  else if s = "DONE" then .ok Status.DONE
  else .error (.keyError s)

/-- Embeds `Task.__init__` as called from the use-case layer
(entities.py lines 29-49): fresh attribute record with empty dependency
set, no project, no assignee; raises `ValueError("Cost must be at least 1")`
when `cost < 1`. -/
def mkTask (task_id : Option String) (title description : String) (cost : Int)
    (status : Status) (tags : List Tag) : Except PyError Task :=
  if cost < 1 then .error (.valueError "Cost must be at least 1")
  else .ok { task_id := task_id, title := title, description := description,
             cost := cost, status := status, tags := tags,
             dependencies := [], project := none, assignee := none }

/-- Embeds `Agent.__init__` (entities.py lines 139-141): never raises. -/
def mkAgent (agent_id name : String) : Agent :=
  { agent_id := agent_id, name := name }

/-- A task record (`dict`) crossing the use-case boundary; `none` in a field
means the key is absent from the dict, so `rec["k"]` raises `KeyError` and
`rec.get("k", d)` yields the default. -/
structure TaskRecord where
  task_id : Option String
  title : Option String
  description : Option String
  cost : Option Int
  tags : Option (List String)
  status : Option String
  assignee : Option String
deriving DecidableEq

/-- An agent record (`dict`) crossing the use-case boundary. -/
structure AgentRecord where
  agent_id : Option String
  name : Option String
deriving DecidableEq

/-- `rec[key]` dict subscription: `KeyError` when the key is absent. -/
def getKey {α : Type} (v : Option α) (key : String) : Except PyError α :=
  match v with
  | some x => .ok x
  | none => .error (.keyError key)

/-- A task repository behaviour (interfaces.py `TaskRepository`): each call
either returns or raises. `add` mutates its record argument in place (it may
set a generated id); the model returns the mutated record. -/
structure TaskRepository where
  add : TaskRecord → Except PyError TaskRecord
  get : String → Except PyError (Option TaskRecord)

/-- An agent repository behaviour (interfaces.py `AgentRepository`). -/
structure AgentRepository where
  add : AgentRecord → Except PyError AgentRecord
  get : String → Except PyError (Option AgentRecord)

/-- Embeds `create_task` (use_cases.py lines 21-68). Python defaults:
`description=""`, `cost=1`, `tags=["LOW_PRIORITY"]`. The tag-name list
comprehension `[Tag[tag] for tag in tags]` is evaluated before
`Task.__init__` runs; `except ValueError` yields an Enterprise-rule
violation, any other exception an Unexpected enterprise error; a raise from
`repository.add` yields an Unexpected adapter error. -/
def create_task (repository : TaskRepository) (title description : String)
    (cost : Int) (tags : List String) : Result TaskRecord :=
  match (do
      let tagList ← tags.mapM tagLookup
      mkTask none title description cost Status.TODO tagList :
      Except PyError Task) with
  | .error (.valueError m) => .failure ("Enterprise rule violation: " ++ m)
  | .error e => .failure ("Unexpected enterprise error: " ++ errStr e)
  | .ok task =>
    let task_dict : TaskRecord :=
      { task_id := none, title := some task.title,
        description := some task.description, cost := some task.cost,
        tags := some (task.tags.map tagName),
        status := some (statusName task.status), assignee := none }
    match repository.add task_dict with
    | .error e => .failure ("Unexpected adapter error: " ++ errStr e)
    | .ok r => .success r

/-- Embeds `create_agent` (use_cases.py lines 71-95): `Agent` construction
cannot raise; a raise from `repository.add` yields an Unexpected adapter
error. -/
def create_agent (repository : AgentRepository) (name : String) :
    Result AgentRecord :=
  let agent := mkAgent "" name
  let agent_dict : AgentRecord := { agent_id := none, name := some agent.name }
  match repository.add agent_dict with
  | .error e => .failure ("Unexpected adapter error: " ++ errStr e)
  | .ok r => .success r

/-- Embeds `get_task` (use_cases.py lines 98-115). -/
def get_task (repository : TaskRepository) (task_id : String) :
    Result TaskRecord :=
  match repository.get task_id with
  | .error e => .failure ("Unexpected adapter error: " ++ errStr e)
  | .ok none => .failure "Task not found"
  | .ok (some task) => .success task

/-- Embeds `get_agent` (use_cases.py lines 118-135). -/
def get_agent (repository : AgentRepository) (agent_id : String) :
    Result AgentRecord :=
  match repository.get agent_id with
  | .error e => .failure ("Unexpected adapter error: " ++ errStr e)
  | .ok none => .failure "Agent not found"
  | .ok (some agent) => .success agent

/-- The body of the single `try` of `assign_task` (use_cases.py
lines 158-188), in Python evaluation order: fetch both records (early
`return` on a missing one), rehydrate the task entity — `task["title"]`
first, then the defaults, the tag comprehension, the status lookup, and the
cost check inside `Task.__init__` — build the agent entity (`agent["name"]`),
assign, re-serialize, and upsert through `task_repo.add`. -/
def assignAttempt (task_repo : TaskRepository) (agent_repo : AgentRepository)
    (task_id agent_id : String) : Except PyError (Result TaskRecord) := do
  let task? ← task_repo.get task_id
  match task? with
  | none => pure (.failure "Task not found")
  | some task => do
    let agent? ← agent_repo.get agent_id
    match agent? with
    | none => pure (.failure "Agent not found")
    | some agent => do
      let title ← getKey task.title "title"
      let description := task.description.getD ""
      let cost := task.cost.getD 1
      let tagList ← (task.tags.getD ["LOW_PRIORITY"]).mapM tagLookup
      let status ← statusLookup (task.status.getD "TODO")
      let task_entity ← mkTask (some task_id) title description cost status tagList
      let name ← getKey agent.name "name"
      let agent_entity := mkAgent agent_id name
      let task_entity := { task_entity with assignee := some agent_entity }
      let result_task : TaskRecord :=
        { task_id := task_entity.task_id, title := some task_entity.title,
          description := some task_entity.description,
          cost := some task_entity.cost,
          tags := some (task_entity.tags.map tagName),
          status := some (statusName task_entity.status),
          assignee := some agent_entity.agent_id }
      let result_task ← task_repo.add result_task
      pure (.success result_task)

/-- Embeds `assign_task` (use_cases.py lines 138-190): any exception from
the body is caught and becomes an Unexpected adapter error. -/
def assign_task (task_repo : TaskRepository) (agent_repo : AgentRepository)
    (task_id agent_id : String) : Result TaskRecord :=
  match assignAttempt task_repo agent_repo task_id agent_id with
  | .ok r => r
  | .error e => .failure ("Unexpected adapter error: " ++ errStr e)

/-! ### Concrete scenarios used by counterexamples and witnesses -/

/-- A fresh task as built by `Task("1", "Task 1")`: status `TODO`, cost 1,
no tags, no dependencies, unassigned. -/
def freshTask : Task :=
  { task_id := some "1", title := "Task 1", description := "", cost := 1,
    status := Status.TODO, tags := [], dependencies := [],
    project := none, assignee := none }

/-- Two fresh tasks A (id 0) and B (id 1). -/
def cycleW0 : World := [(0, freshTask), (1, freshTask)]

/-- After `A.add_dependency(B)`. -/
def cycleW1 : World := add_dependency cycleW0 0 1

/-- After the subsequent `B.add_dependency(A)`. -/
def cycleW2 : World := add_dependency cycleW1 1 0

/-- Four fresh tasks A (0), B (1), C (2), D (3). -/
def diamW0 : World := [(0, freshTask), (1, freshTask), (2, freshTask), (3, freshTask)]

/-- After `A.add_dependency(B)` (accepted). -/
def diamW1 : World := add_dependency diamW0 0 1

/-- After `A.add_dependency(C)` (accepted: B and C have no dependencies yet). -/
def diamW2 : World := add_dependency diamW1 0 2

/-- After `B.add_dependency(D)` (accepted: validation runs from B). -/
def diamW3 : World := add_dependency diamW2 1 3

/-- After `C.add_dependency(D)` (accepted: validation runs from C); the
dependency graph below A is now the diamond A -> {B, C} -> D. -/
def diamW4 : World := add_dependency diamW3 2 3

/-- After a second `A.add_dependency(B)`: B is already a dependency, the
`set.add` is a no-op, validation from A rejects the diamond, and the
rollback `remove` deletes the pre-existing edge A -> B. -/
def diamW5 : World := add_dependency diamW4 0 1

/-- Four fresh tasks A (0), B (1), C (2), D (3) for the diamond-rejection
scenario of claim 3. -/
def diamB0 : World := [(0, freshTask), (1, freshTask), (2, freshTask), (3, freshTask)]

/-- After `B.add_dependency(D)` (accepted). -/
def diamB1 : World := add_dependency diamB0 1 3

/-- After `C.add_dependency(D)` (accepted). -/
def diamB2 : World := add_dependency diamB1 2 3

/-- After `A.add_dependency(B)` (accepted). -/
def diamB3 : World := add_dependency diamB2 0 1

/-- After `A.add_dependency(C)`: the two paths A -> B -> D and A -> C -> D
converge on D, the global-seen traversal from A pops D twice, and the
acyclic diamond is rejected. -/
def diamB4 : World := add_dependency diamB3 0 2

/-- A task that is `DONE`, assigned, and dependency-free. -/
def doneTask : Task :=
  { task_id := some "1", title := "Task 1", description := "", cost := 1,
    status := Status.DONE, tags := [], dependencies := [],
    project := none, assignee := some (mkAgent "a1" "Agent 1") }

/-- A heap holding only `doneTask` at id 0. -/
def doneW : World := [(0, doneTask)]

/-- A fresh task of the given cost (as built by `Task("1", "T", cost=c)`). -/
def taskOfCost (c : Int) : Task :=
  { task_id := some "1", title := "T", description := "", cost := c,
    status := Status.TODO, tags := [], dependencies := [],
    project := none, assignee := none }

/-- The task list with costs `[5, 10, 100]` from the spec example. -/
def makespanTasks : List Task := [taskOfCost 5, taskOfCost 10, taskOfCost 100]

/-- A repository that accepts every `add` and finds nothing. -/
def emptyTaskRepo : TaskRepository :=
  { add := fun r => .ok r, get := fun _ => .ok none }

/-- The tag names accepted by `Tag[...]` lookup. -/
def validTagNames : List String :=
  ["HIGH_PRIORITY", "MEDIUM_PRIORITY", "LOW_PRIORITY"]

/-- Termination measure for the `while` loop of `validate_dependencies`:
stack length plus, for each not-yet-seen heap object, one pop plus one push
per dependency. Every loop iteration that does not return strictly
decreases it. -/
def measureV (w : World) (stack seen : List Nat) : Nat :=
  stack.length +
    (((keys w).filter (fun v => decide (v ∉ seen))).map
      (fun v => 1 + (depsList w v).length)).sum

/-!
## Theorems

Helper lemmas first, then one theorem (plus witness or counterexample)
per specification claim.
-/

/-- Heap update/lookup: looking up `j` after setting `i` yields the new
record at `i` and is unchanged elsewhere. -/
theorem getTask_setTask (w : World) (i j : Nat) (tk : Task) :
    getTask (setTask w i tk) j = if j = i then tk else getTask w j := by
  induction w with
  | nil =>
    by_cases h : j = i
    · subst h; simp [setTask, getTask]
    · simp [setTask, getTask, h, Ne.symm h]
  | cons kv rest ih =>
    obtain ⟨k, v⟩ := kv
    by_cases hk : k = i
    · subst hk
      by_cases hj : j = k
      · subst hj; simp [setTask, getTask]
      · simp [setTask, getTask, hj, Ne.symm hj]
    · by_cases hj : k = j
      · have hji : ¬ j = i := fun h => hk (hj.trans h)
        simp [setTask, getTask, hk, hj, hji]
      · simp [setTask, getTask, hk, hj, ih]

/-- C1 (counterexample): the claim "no sequence of entity operations ever
moves a task whose status is DONE back to IN_PROGRESS or TODO" is false:
`start_task` does not check the current status, so on a heap with one DONE
task that has an assignee and no dependencies, `start_task` succeeds and
moves the status from DONE back to IN_PROGRESS. -/
theorem claim1_counterexample :
    (getTask doneW 0).status = Status.DONE ∧
    (start_task doneW 0).2 = true ∧
    (getTask (start_task doneW 0).1 0).status = Status.IN_PROGRESS := by
  decide

/-- C1 (amended): the entity methods change a status only in two ways:
`complete_task` moves exactly `IN_PROGRESS` to `DONE`, and `start_task`
sets the status of its receiver to `IN_PROGRESS` whenever `can_start`
holds — from `TODO`, but also from `DONE`, so a completed task can be
reopened; `add_dependency`, `assign` and `set_project` never change any
status, and no method ever sets a status back to `TODO`. -/
theorem claim1_amended :
    ∀ (w : World) (t u v : Nat) (a : Agent) (p : Project),
      ((getTask (complete_task w t).1 u).status =
        if u = t ∧ (getTask w t).status = Status.IN_PROGRESS then Status.DONE
        else (getTask w u).status) ∧
      ((getTask (start_task w t).1 u).status =
        if u = t ∧ can_start w t = true then Status.IN_PROGRESS
        else (getTask w u).status) ∧
      (getTask (add_dependency w t v) u).status = (getTask w u).status ∧
      (getTask (assign w t a) u).status = (getTask w u).status ∧
      (getTask (set_project w t p) u).status = (getTask w u).status := by
  intro w t u v a p
  refine ⟨?_, ?_, ?_, ?_, ?_⟩
  · by_cases hs : (getTask w t).status = Status.IN_PROGRESS
    · simp only [complete_task, can_complete, hs]
      by_cases hu : u = t <;> simp [getTask_setTask, hu, hs]
    · simp only [complete_task, can_complete]
      simp [hs]
  · by_cases hc : can_start w t
    · simp only [start_task, hc, if_true]
      by_cases hu : u = t <;> simp [getTask_setTask, hu, hc]
    · simp only [start_task]
      simp [hc]
  · rw [add_dependency]
    by_cases hv : validate_dependencies (postAdd w t v) t
    · rw [if_pos hv, postAdd]
      by_cases hu : u = t <;> simp [getTask_setTask, hu]
    · rw [if_neg hv]
      by_cases hu : u = t <;> simp [getTask_setTask, hu, postAdd]
  · rw [assign]
    by_cases hu : u = t <;> simp [getTask_setTask, hu]
  · rw [set_project]
    by_cases hu : u = t <;> simp [getTask_setTask, hu]

/-- C2 (counterexample): the claim fails when the added task is already a
dependency. Build, through `add_dependency` calls alone, the heap `diamW4`
with A -> {B, C}, B -> D, C -> D; then `A.add_dependency(B)` is rejected by
the validation (the diamond makes the traversal from A pop D twice) and the
rollback `remove` deletes the pre-existing edge A -> B: A's dependency set
shrinks from `[1, 2]` to `[2]`, so it is not restored on rejection. -/
theorem claim2_counterexample :
    (getTask diamW4 0).dependencies = [1, 2] ∧
    validate_dependencies (postAdd diamW4 0 1) 0 = false ∧
    (getTask (add_dependency diamW4 0 1) 0).dependencies = [2] ∧
    (getTask (add_dependency diamW4 0 1) 0).dependencies ≠
      (getTask diamW4 0).dependencies := by
  decide

/-- C2 (amended): if `t.add_dependency(d)` is rejected by the dependency
validation and `d` was not already in `t`'s dependency set before the call,
then `t`'s dependency set after the call equals its set before the call
(when `d` was already a dependency, rejection instead removes it, see the
counterexample). -/
theorem claim2_amended (w : World) (t other : Nat)
    (hpre : other ∉ (getTask w t).dependencies)
    (hrej : validate_dependencies (postAdd w t other) t = false) :
    (getTask (add_dependency w t other) t).dependencies =
      (getTask w t).dependencies := by
  rw [add_dependency, if_neg (by simp [hrej])]
  have hget : getTask (postAdd w t other) t =
      { getTask w t with dependencies := setAdd (getTask w t).dependencies other } := by
    rw [postAdd]; simp [getTask_setTask]
  rw [getTask_setTask]
  simp only [if_pos rfl, hget]
  rw [setAdd, if_neg hpre, List.erase_append_right _ hpre]
  simp

/-- C2 (witness for the amended theorem): on the two-task heap where A
already depends on B, `B.add_dependency(A)` is rejected and B's dependency
set is unchanged. -/
theorem claim2_witness :
    (getTask (add_dependency cycleW1 1 0) 1).dependencies =
      (getTask cycleW1 1).dependencies :=
  claim2_amended cycleW1 1 0 (by decide) (by decide)

/-- `set.add` puts the element in the set. -/
theorem mem_setAdd_self (l : List Nat) (x : Nat) : x ∈ setAdd l x := by
  rw [setAdd]
  by_cases h : x ∈ l <;> simp [h]

/-- `set.add` keeps the no-duplicates representation invariant. -/
theorem setAdd_nodup (l : List Nat) (x : Nat) (h : l.Nodup) :
    (setAdd l x).Nodup := by
  rw [setAdd]
  by_cases hx : x ∈ l <;> simp [hx, List.nodup_append, h]

/-- C3: `add_dependency(self, other)` leaves `other` in `self`'s dependency
set iff the global-seen depth-first traversal of the post-add graph from
`self` (`validate_dependencies`) never pops an already-seen node, i.e.
returns true (first conjunct, for any heap whose dependency set at `self`
is duplicate-free, as every set is); consequently, on the two-task heap
where `A.add_dependency(B)` succeeded, `B.add_dependency(A)` is rejected
with A absent from B's dependency set afterward (second conjunct), and an
acyclic diamond — two dependency paths from A converging on the shared
task D — is likewise rejected (third conjunct). -/
theorem claim3_theorem :
    (∀ (w : World) (t other : Nat), (getTask w t).dependencies.Nodup →
      (other ∈ (getTask (add_dependency w t other) t).dependencies ↔
        validate_dependencies (postAdd w t other) t = true)) ∧
    (1 ∈ (getTask cycleW1 0).dependencies ∧
      validate_dependencies (postAdd cycleW1 1 0) 1 = false ∧
      0 ∉ (getTask cycleW2 1).dependencies) ∧
    (validate_dependencies (postAdd diamB3 0 2) 0 = false ∧
      2 ∉ (getTask diamB4 0).dependencies) := by
  refine ⟨?_, by decide, by decide⟩
  intro w t other hnd
  have hget : getTask (postAdd w t other) t =
      { getTask w t with dependencies := setAdd (getTask w t).dependencies other } := by
    rw [postAdd]; simp [getTask_setTask]
  by_cases hv : validate_dependencies (postAdd w t other) t
  · rw [add_dependency, if_pos hv, hget]
    simp [hv, mem_setAdd_self]
  · rw [add_dependency, if_neg hv, getTask_setTask]
    simp only [if_pos rfl, hget]
    simp only [Bool.not_eq_true] at hv
    simp [hv]
    exact List.Nodup.not_mem_erase (setAdd_nodup _ _ hnd)

/-- C3 (witness for the first conjunct): instantiated on the fresh two-task
heap for `A.add_dependency(B)`. -/
theorem claim3_witness :
    1 ∈ (getTask (add_dependency cycleW0 0 1) 0).dependencies ↔
      validate_dependencies (postAdd cycleW0 0 1) 0 = true :=
  claim3_theorem.1 cycleW0 0 1 (by decide)

/-- C4: `start_task` returns true iff `can_start` holds, in which case the
status becomes `IN_PROGRESS` and otherwise stays unchanged; `can_start`
holds iff an assignee is set and (the dependency set is empty or every
dependency's status is DONE); when `can_start` fails — in particular
whenever no assignee is set, whatever the dependencies' statuses — the call
returns false and the heap is completely unchanged. -/
theorem claim4_theorem :
    ∀ (w : World) (t : Nat),
      ((start_task w t).2 = can_start w t) ∧
      ((getTask (start_task w t).1 t).status =
        if can_start w t then Status.IN_PROGRESS else (getTask w t).status) ∧
      (can_start w t = true ↔
        ((getTask w t).assignee.isSome = true ∧
          ((getTask w t).dependencies = [] ∨
            ∀ d ∈ (getTask w t).dependencies,
              (getTask w d).status = Status.DONE))) ∧
      (can_start w t = false → start_task w t = (w, false)) ∧
      ((getTask w t).assignee = none → start_task w t = (w, false)) := by
  intro w t
  refine ⟨?_, ?_, ?_, ?_, ?_⟩
  · by_cases hc : can_start w t <;> simp [start_task, hc]
  · by_cases hc : can_start w t <;> simp [start_task, hc, getTask_setTask]
  · rw [can_start]
    simp [List.isEmpty_iff, List.all_eq_true]
  · intro hc
    simp [start_task, hc]
  · intro ha
    have hc : can_start w t = false := by simp [can_start, ha]
    simp [start_task, hc]

/-- C4 (witness): on the fresh two-task heap, task 0 has no assignee, so
`start_task` reports no transition and leaves the heap unchanged. -/
theorem claim4_witness : start_task cycleW0 0 = (cycleW0, false) :=
  (claim4_theorem cycleW0 0).2.2.2.2 (by decide)

/-- Every `Result` value is exactly one of `Success` or `Failure`. -/
theorem result_success_or_failure {α : Type} (r : Result α) :
    (∃ v, r = Result.success v) ∨ (∃ e, r = Result.failure e) := by
  cases r with
  | success v => exact Or.inl ⟨v, rfl⟩
  | failure e => exact Or.inr ⟨e, rfl⟩

/-- C5: each of the five use-case functions, for every repository behaviour
(including `add`/`get` calls that raise, return nothing, or return a
malformed record with missing keys or unknown enum names — the
`TaskRepository`/`AgentRepository` fields range over arbitrary
exception-or-value functions and arbitrary records), returns a `Result`
that is exactly one of `Success` or `Failure`; each embedded function is
total, mirroring that every raise inside the Python bodies is caught at
the use-case boundary, so no exception propagates to the caller. -/
theorem claim5_theorem :
    ∀ (trepo : TaskRepository) (arepo : AgentRepository)
      (title description name task_id agent_id : String) (cost : Int)
      (tags : List String),
      ((∃ v, create_task trepo title description cost tags = Result.success v) ∨
        (∃ e, create_task trepo title description cost tags = Result.failure e)) ∧
      ((∃ v, create_agent arepo name = Result.success v) ∨
        (∃ e, create_agent arepo name = Result.failure e)) ∧
      ((∃ v, get_task trepo task_id = Result.success v) ∨
        (∃ e, get_task trepo task_id = Result.failure e)) ∧
      ((∃ v, get_agent arepo agent_id = Result.success v) ∨
        (∃ e, get_agent arepo agent_id = Result.failure e)) ∧
      ((∃ v, assign_task trepo arepo task_id agent_id = Result.success v) ∨
        (∃ e, assign_task trepo arepo task_id agent_id = Result.failure e)) := by
  intro trepo arepo title description name task_id agent_id cost tags
  exact ⟨result_success_or_failure _, result_success_or_failure _,
    result_success_or_failure _, result_success_or_failure _,
    result_success_or_failure _⟩

/-- `Tag[name]` succeeds exactly on the three valid tag names. -/
theorem tagLookup_ok_of_valid (s : String) (h : s ∈ validTagNames) :
    ∃ tg, tagLookup s = Except.ok tg := by
  simp only [validTagNames, List.mem_cons, List.not_mem_nil, or_false] at h
  rcases h with rfl | rfl | rfl
  · exact ⟨Tag.HIGH_PRIORITY, by rw [tagLookup, if_pos rfl]⟩
  · exact ⟨Tag.MEDIUM_PRIORITY,
      by rw [tagLookup, if_neg (by decide), if_pos rfl]⟩
  · exact ⟨Tag.LOW_PRIORITY,
      by rw [tagLookup, if_neg (by decide), if_neg (by decide), if_pos rfl]⟩

/-- `Tag[name]` raises `KeyError(name)` on any other name. -/
theorem tagLookup_err_of_invalid (s : String) (h : s ∉ validTagNames) :
    tagLookup s = Except.error (PyError.keyError s) := by
  rw [validTagNames] at h
  simp only [List.mem_cons, List.mem_singleton, not_or] at h
  rw [tagLookup, if_neg h.1, if_neg h.2.1, if_neg h.2.2.1]

/-- The tag-name comprehension succeeds when every name is valid. -/
theorem mapM_tagLookup_ok (tags : List String)
    (h : ∀ s ∈ tags, s ∈ validTagNames) :
    ∃ ts, tags.mapM tagLookup = Except.ok ts := by
  induction tags with
  | nil => exact ⟨[], rfl⟩
  | cons x xs ih =>
    obtain ⟨ts, hts⟩ := ih (fun s hs => h s (List.mem_cons_of_mem _ hs))
    obtain ⟨tg, htg⟩ := tagLookup_ok_of_valid x (h x (List.mem_cons_self x xs))
    refine ⟨tg :: ts, ?_⟩
    rw [List.mapM_cons, htg, hts]
    rfl

/-- The tag-name comprehension raises `KeyError` as soon as one name is
invalid, whatever else the list holds. -/
theorem mapM_tagLookup_err (tags : List String)
    (h : ∃ s ∈ tags, s ∉ validTagNames) :
    ∃ k, tags.mapM tagLookup = Except.error (PyError.keyError k) := by
  induction tags with
  | nil => simp at h
  | cons x xs ih =>
    by_cases hx : x ∈ validTagNames
    · have hxs : ∃ s ∈ xs, s ∉ validTagNames := by
        obtain ⟨s, hs, hbad⟩ := h
        rcases List.mem_cons.mp hs with rfl | hs2
        · exact absurd hx hbad
        · exact ⟨s, hs2, hbad⟩
      obtain ⟨k, hk⟩ := ih hxs
      obtain ⟨tg, htg⟩ := tagLookup_ok_of_valid x hx
      refine ⟨k, ?_⟩
      rw [List.mapM_cons, htg, hk]
      rfl
    · refine ⟨x, ?_⟩
      rw [List.mapM_cons, tagLookup_err_of_invalid x hx]
      rfl

/-- C6: for every cost < 1 and every list of well-formed tag names (and any
title, description and repository behaviour), `create_task` returns a
`Failure` whose message carries the `Enterprise rule violation: ` prefix —
the tag-name comprehension succeeds, `Task.__init__` raises
`ValueError("Cost must be at least 1")`, and the `except ValueError` branch
converts it; no `Success` is possible. -/
theorem claim6_theorem (trepo : TaskRepository) (title description : String)
    (cost : Int) (tags : List String) (hc : cost < 1)
    (ht : ∀ s ∈ tags, s ∈ validTagNames) :
    create_task trepo title description cost tags =
      Result.failure ("Enterprise rule violation: " ++ "Cost must be at least 1") := by
  obtain ⟨ts, hts⟩ := mapM_tagLookup_ok tags ht
  rw [create_task]
  rw [show (do
      let tagList ← tags.mapM tagLookup
      mkTask none title description cost Status.TODO tagList :
      Except PyError Task) =
      Except.error (PyError.valueError "Cost must be at least 1") by
    rw [hts]
    show mkTask none title description cost Status.TODO ts = _
    rw [mkTask, if_pos hc]]

/-- C6 (witness): `create_task` with cost 0 and the valid tag list
`["LOW_PRIORITY"]` against the empty repository fails with the
Enterprise-rule-violation message. -/
theorem claim6_witness :
    create_task emptyTaskRepo "Test Task" "" 0 ["LOW_PRIORITY"] =
      Result.failure ("Enterprise rule violation: " ++ "Cost must be at least 1") :=
  claim6_theorem emptyTaskRepo "Test Task" "" 0 ["LOW_PRIORITY"] (by decide)
    (by decide)

/-- C10: for every tag list containing a name outside the three valid tag
names, `create_task` returns a `Failure` carrying the
`Unexpected enterprise error: ` prefix — even when cost < 1 as well (the
`cost` below is universally quantified), because the tag-name comprehension
is evaluated (and raises `KeyError`, which `except ValueError` does not
catch) before the cost check inside `Task.__init__` can run. -/
theorem claim10_theorem (trepo : TaskRepository) (title description : String)
    (cost : Int) (tags : List String)
    (h : ∃ s ∈ tags, s ∉ validTagNames) :
    ∃ m, create_task trepo title description cost tags =
      Result.failure ("Unexpected enterprise error: " ++ m) := by
  obtain ⟨k, hk⟩ := mapM_tagLookup_err tags h
  refine ⟨k, ?_⟩
  rw [create_task]
  rw [show (do
      let tagList ← tags.mapM tagLookup
      mkTask none title description cost Status.TODO tagList :
      Except PyError Task) = Except.error (PyError.keyError k) by
    rw [hk]; rfl]
  rfl

/-- C10 (witness): with the unknown tag name `"URGENT"` and cost 0,
`create_task` fails with the Unexpected-enterprise-error prefix, not the
Enterprise-rule-violation one. -/
theorem claim10_witness :
    ∃ m, create_task emptyTaskRepo "Test Task" "" 0 ["URGENT"] =
      Result.failure ("Unexpected enterprise error: " ++ m) :=
  claim10_theorem emptyTaskRepo "Test Task" "" 0 ["URGENT"]
    ⟨"URGENT", by decide, by decide⟩

/-- `sum(task.cost for ...)` as a fold equals the sum of the cost list. -/
theorem foldl_add_cost (l : List Task) (i : Int) :
    l.foldl (fun a x => a + x.cost) i = i + (l.map (fun x => x.cost)).sum := by
  induction l generalizing i with
  | nil => simp
  | cons x xs ih => simp [ih, add_assoc]

/-- The running `max` of costs never drops below its initial value. -/
theorem le_foldl_max_cost (l : List Task) (i : Int) :
    i ≤ l.foldl (fun a x => max a x.cost) i := by
  induction l generalizing i with
  | nil => simp
  | cons x xs ih => exact le_trans (le_max_left _ _) (ih _)

/-- The running `max` of costs is the initial value or one of the costs. -/
theorem foldl_max_cost_mem (l : List Task) (i : Int) :
    l.foldl (fun a x => max a x.cost) i = i ∨
      l.foldl (fun a x => max a x.cost) i ∈ l.map (fun x => x.cost) := by
  induction l generalizing i with
  | nil => simp
  | cons x xs ih =>
    rcases ih (max i x.cost) with h | h
    · rcases max_choice i x.cost with hm | hm
      · left
        rw [List.foldl_cons, h, hm]
      · right
        rw [List.foldl_cons, h, hm]
        exact List.mem_cons_self _ _
    · right
      exact List.mem_cons_of_mem _ h

/-- Every cost in the list is bounded by the running `max`. -/
theorem foldl_max_cost_ub :
    ∀ (l : List Task) (i c : Int), c ∈ l.map (fun x => x.cost) →
      c ≤ l.foldl (fun a x => max a x.cost) i := by
  intro l
  induction l with
  | nil => intro i c h; simp at h
  | cons x xs ih =>
    intro i c h
    rcases List.mem_cons.mp h with hc | hc
    · rw [hc]
      exact le_trans (le_max_right i x.cost) (le_foldl_max_cost xs _)
    · exact ih _ c hc

/-- C7: `get_makespan_boundaries` returns `(0, 0)` on the empty list; on
every list its second component is the sum of all task costs; on every
non-empty list its first component is one of the task costs and an upper
bound of all of them (i.e. the maximum single task cost); and on the cost
list `[5, 10, 100]` the result is `(100, 115)`. -/
theorem claim7_theorem :
    (get_makespan_boundaries [] = (0, 0)) ∧
    (∀ tasks : List Task,
      (get_makespan_boundaries tasks).2 = (tasks.map (fun x => x.cost)).sum) ∧
    (∀ (t : Task) (ts : List Task),
      (get_makespan_boundaries (t :: ts)).1 ∈ (t :: ts).map (fun x => x.cost)) ∧
    (∀ (t : Task) (ts : List Task) (c : Int),
      c ∈ (t :: ts).map (fun x => x.cost) →
        c ≤ (get_makespan_boundaries (t :: ts)).1) ∧
    (get_makespan_boundaries makespanTasks = (100, 115)) := by
  refine ⟨rfl, ?_, ?_, ?_, by decide⟩
  · intro tasks
    cases tasks with
    | nil => rfl
    | cons t ts => simp [get_makespan_boundaries, foldl_add_cost]
  · intro t ts
    rcases foldl_max_cost_mem ts t.cost with h | h
    · rw [get_makespan_boundaries]
      rw [h]
      exact List.mem_cons_self _ _
    · rw [get_makespan_boundaries]
      exact List.mem_cons_of_mem _ h
  · intro t ts c hc
    rcases List.mem_cons.mp hc with h | h
    · rw [get_makespan_boundaries, h]
      exact le_foldl_max_cost ts t.cost
    · rw [get_makespan_boundaries]
      exact foldl_max_cost_ub ts t.cost c h

/-- C7 (witness for the upper-bound conjunct): cost 10 is bounded by the
minimum makespan of the `[5, 10, 100]` example. -/
theorem claim7_witness :
    (10 : Int) ≤ (get_makespan_boundaries (taskOfCost 5 :: [taskOfCost 10, taskOfCost 100])).1 :=
  claim7_theorem.2.2.2.1 (taskOfCost 5) [taskOfCost 10, taskOfCost 100] 10
    (by decide)

/-- A `Counter` update changes exactly the entry of the bumped key: it
increments it (from an implicit 0 when absent) and leaves every other key's
entry alone. -/
theorem countLookup_bump :
    ∀ (acc : List (Status × Nat)) (x s : Status),
      countLookup (bumpCount acc x) s =
        if x = s then some ((countLookup acc s).getD 0 + 1)
        else countLookup acc s := by
  intro acc
  induction acc with
  | nil =>
    intro x s
    by_cases h : x = s <;> simp [bumpCount, countLookup, h]
  | cons p rest ih =>
    obtain ⟨t, n⟩ := p
    intro x s
    by_cases htx : t = x
    · subst htx
      by_cases hts : t = s
      · subst hts
        simp [bumpCount, countLookup]
      · simp [bumpCount, countLookup, hts]
    · by_cases hts : t = s
      · subst hts
        have hxs : ¬ x = t := fun h => htx h.symm
        simp [bumpCount, countLookup, htx, hxs]
      · simp [bumpCount, countLookup, htx, hts, ih]

/-- A `Counter` update adds exactly one to the total multiplicity. -/
theorem countValuesSum_bump :
    ∀ (acc : List (Status × Nat)) (x : Status),
      countValuesSum (bumpCount acc x) = countValuesSum acc + 1 := by
  intro acc
  induction acc with
  | nil => intro x; simp [bumpCount, countValuesSum]
  | cons p rest ih =>
    obtain ⟨t, n⟩ := p
    intro x
    by_cases htx : t = x
    · subst htx
      simp [bumpCount, countValuesSum]
      omega
    · simp [bumpCount, countValuesSum, htx]
      have := ih x
      simp [countValuesSum] at this
      omega

/-- Folding `Counter` updates over a status list: the final entry of `s`
combines the accumulator's entry with the list's occurrence count, and is
absent iff `s` neither occurs in the list nor has an accumulator entry. -/
theorem countLookup_foldl :
    ∀ (l : List Status) (acc : List (Status × Nat)) (s : Status),
      countLookup (l.foldl bumpCount acc) s =
        if s ∈ l ∨ (countLookup acc s).isSome = true then
          some ((countLookup acc s).getD 0 + l.count s)
        else none := by
  intro l
  induction l with
  | nil =>
    intro acc s
    cases h : countLookup acc s <;> simp [h]
  | cons x xs ih =>
    intro acc s
    rw [List.foldl_cons, ih (bumpCount acc x) s, countLookup_bump]
    by_cases hxs : x = s
    · subst hxs
      simp only [List.count_cons, List.mem_cons, if_pos rfl]
      cases h : countLookup acc x <;>
        simp [h] <;> omega
    · have hsx : ¬ s = x := fun h => hxs h.symm
      have hcnt : (x :: xs).count s = xs.count s := by
        simp [List.count_cons, hxs]
      rw [if_neg hxs, hcnt]
      simp [List.mem_cons, hsx]

/-- Folding `Counter` updates adds the list length to the total
multiplicity. -/
theorem countValuesSum_foldl :
    ∀ (l : List Status) (acc : List (Status × Nat)),
      countValuesSum (l.foldl bumpCount acc) = countValuesSum acc + l.length := by
  intro l
  induction l with
  | nil => intro acc; simp
  | cons x xs ih =>
    intro acc
    rw [List.foldl_cons, ih, countValuesSum_bump]
    simp [List.length_cons]
    omega

/-- C8: `track_statuses` maps exactly the statuses occurring in the task
list to their counts — a status present in the list has the entry equal to
the number of tasks bearing it, a status not present has no entry at all
(no zero-filling) — and the recorded counts sum to the length of the input
list. -/
theorem claim8_theorem :
    ∀ (tasks : List Task) (s : Status),
      (countLookup (track_statuses tasks) s =
        if s ∈ tasks.map (fun t => t.status) then
          some ((tasks.map (fun t => t.status)).count s)
        else none) ∧
      countValuesSum (track_statuses tasks) = tasks.length := by
  intro tasks s
  constructor
  · rw [track_statuses, countLookup_foldl]
    simp [countLookup]
  · rw [track_statuses, countValuesSum_foldl]
    simp [countValuesSum]

/-- A dangling id dereferences to the placeholder object. -/
theorem getTask_not_mem_keys :
    ∀ (w : World) (c : Nat), c ∉ keys w → getTask w c = defaultTask := by
  intro w
  induction w with
  | nil => intro c _; rfl
  | cons p rest ih =>
    obtain ⟨k, v⟩ := p
    intro c h
    simp only [keys, List.map_cons, List.mem_cons, not_or] at h
    have hk : ¬ k = c := fun hh => h.1 hh.symm
    simp only [getTask, if_neg hk]
    exact ih c h.2

/-- Sums of weights over a filter shrink when the filter gets stricter. -/
theorem filter_sum_mono (g : Nat → Nat) :
    ∀ (ks : List Nat) (p q : Nat → Bool), (∀ v, p v = true → q v = true) →
      ((ks.filter p).map g).sum ≤ ((ks.filter q).map g).sum := by
  intro ks
  induction ks with
  | nil => intro p q _; simp
  | cons k ks ih =>
    intro p q hpq
    by_cases hp : p k = true
    · simp [List.filter_cons, hp, hpq k hp]
      exact ih p q hpq
    · simp only [Bool.not_eq_true] at hp
      simp only [List.filter_cons, hp, Bool.false_eq_true, if_false]
      cases hq : q k with
      | true =>
        simp [hq]
        exact le_trans (ih p q hpq) (Nat.le_add_left _ _)
      | false =>
        simp [hq]
        exact ih p q hpq

/-- Marking an unseen key `c` as seen removes at least `c`'s weight from the
unseen-weight sum. -/
theorem filter_sum_extract (g : Nat → Nat) :
    ∀ (ks : List Nat) (c : Nat) (seen : List Nat), c ∈ ks → c ∉ seen →
      ((ks.filter (fun v => decide (v ∉ (c :: seen)))).map g).sum + g c ≤
        ((ks.filter (fun v => decide (v ∉ seen))).map g).sum := by
  intro ks
  induction ks with
  | nil => intro c seen hc _; simp at hc
  | cons k ks ih =>
    intro c seen hc hs
    by_cases hkc : k = c
    · subst hkc
      have h1 : (decide (k ∉ (k :: seen))) = false := by simp
      have h2 : (decide (k ∉ seen)) = true := by simp [hs]
      simp only [List.filter_cons, h1, h2, Bool.false_eq_true, if_false,
        if_true, List.map_cons, List.sum_cons]
      have hm := filter_sum_mono g ks (fun v => decide (v ∉ (k :: seen)))
        (fun v => decide (v ∉ seen)) ?_
      · omega
      · intro v hv
        simp only [decide_eq_true_eq] at hv ⊢
        intro hvs
        exact hv (List.mem_cons_of_mem _ hvs)
    · have hc2 : c ∈ ks := by
        rcases List.mem_cons.mp hc with h | h
        · exact absurd h.symm hkc
        · exact h
      by_cases hks : k ∈ seen
      · have h1 : (decide (k ∉ (c :: seen))) = false := by
          simp [List.mem_cons_of_mem _ hks]
        have h2 : (decide (k ∉ seen)) = false := by simp [hks]
        simp only [List.filter_cons, h1, h2, Bool.false_eq_true, if_false]
        exact ih c seen hc2 hs
      · have h1 : (decide (k ∉ (c :: seen))) = true := by
          simp [List.mem_cons, hkc, hks]
        have h2 : (decide (k ∉ seen)) = true := by simp [hks]
        simp only [List.filter_cons, h1, h2, if_true, List.map_cons,
          List.sum_cons]
        have := ih c seen hc2 hs
        omega

/-- Each loop iteration of `validate_dependencies` either returns or
strictly decreases the measure, so any fuel above the measure reaches a
result. -/
theorem validateLoop_isSome_of_lt (w : World) :
    ∀ (fuel : Nat) (stack seen : List Nat),
      measureV w stack seen < fuel →
        (validateLoop w fuel stack seen).isSome = true := by
  intro fuel
  induction fuel with
  | zero => intro stack seen h; exact absurd h (Nat.not_lt_zero _)
  | succ fuel ih =>
    intro stack seen h
    cases stack with
    | nil => simp [validateLoop]
    | cons c stack =>
      rw [validateLoop]
      by_cases hc : c ∈ seen
      · simp [hc]
      · rw [if_neg hc]
        apply ih
        rw [measureV] at h ⊢
        rw [List.length_append, List.length_reverse]
        rw [List.length_cons] at h
        by_cases hck : c ∈ keys w
        · have hext := filter_sum_extract (fun v => 1 + (depsList w v).length)
            (keys w) c seen hck hc
          simp only [] at hext
          omega
        · have hd : depsList w c = [] := by
            rw [depsList, getTask_not_mem_keys w c hck]
            rfl
          have hmono := filter_sum_mono (fun v => 1 + (depsList w v).length)
            (keys w) (fun v => decide (v ∉ (c :: seen)))
            (fun v => decide (v ∉ seen)) ?_
          · rw [hd]
            simp only [List.length_nil]
            omega
          · intro v hv
            simp only [decide_eq_true_eq] at hv ⊢
            intro hvs
            exact hv (List.mem_cons_of_mem _ hvs)

/-- Once the loop reaches a result, more fuel does not change it. -/
theorem validateLoop_mono (w : World) :
    ∀ (fuel fuel2 : Nat) (stack seen : List Nat),
      fuel ≤ fuel2 → (validateLoop w fuel stack seen).isSome = true →
        validateLoop w fuel2 stack seen = validateLoop w fuel stack seen := by
  intro fuel
  induction fuel with
  | zero => intro fuel2 stack seen _ hs; simp [validateLoop] at hs
  | succ fuel ih =>
    intro fuel2 stack seen hle hs
    cases fuel2 with
    | zero => omega
    | succ f2 =>
      cases stack with
      | nil => simp [validateLoop]
      | cons c stack =>
        rw [validateLoop, validateLoop]
        by_cases hc : c ∈ seen
        · simp [hc]
        · rw [if_neg hc, if_neg hc]
          rw [validateLoop, if_neg hc] at hs
          exact ih f2 _ _ (by omega) hs

/-- The initial measure of `validate_dependencies` is below its fuel. -/
theorem measureV_lt_validateFuel (w : World) (t : Nat) :
    measureV w [t] [] < validateFuel w [t] := by
  rw [measureV, validateFuel]
  have hf : ((keys w).filter (fun v => decide (v ∉ ([] : List Nat)))) = keys w := by
    apply List.filter_eq_self.mpr
    intro a _
    simp
  rw [hf]
  omega

/-- C9: for every finite heap of tasks — cyclic dependency graphs included —
the `while` loop of `validate_dependencies`, run with the fuel
`validateFuel` (one unit per stack entry plus one pop and one push per
dependency over all tasks, the bound on productive iterations), reaches a
result, and any larger fuel yields the same result, namely
`validate_dependencies` itself: the loop terminates on every input. -/
theorem claim9_theorem :
    ∀ (w : World) (t : Nat),
      (validateLoop w (validateFuel w [t]) [t] []).isSome = true ∧
      ∀ fuel, validateFuel w [t] ≤ fuel →
        validateLoop w fuel [t] [] = some (validate_dependencies w t) := by
  intro w t
  have hsome := validateLoop_isSome_of_lt w (validateFuel w [t]) [t] []
    (measureV_lt_validateFuel w t)
  refine ⟨hsome, ?_⟩
  intro fuel hf
  rw [validateLoop_mono w (validateFuel w [t]) fuel [t] [] hf hsome]
  rw [validate_dependencies]
  cases h : validateLoop w (validateFuel w [t]) [t] [] with
  | none => rw [h] at hsome; simp at hsome
  | some b => simp

/-- C9 (witness): on the concrete two-task heap, the loop at exactly the
computed fuel returns the value of `validate_dependencies`. -/
theorem claim9_witness :
    validateLoop cycleW0 (validateFuel cycleW0 [0]) [0] [] =
      some (validate_dependencies cycleW0 0) :=
  (claim9_theorem cycleW0 0).2 (validateFuel cycleW0 [0]) le_rfl

end OnionTasks
